import Mathlib

/-!
# SecurityCouncil quorum-gated multisig: shallow embedding and verification

The contract under verification (a `MultiSigWallet` core with a
`SecurityCouncil` extension) is exercised by
`packages/contracts/contracts/test/SecurityCouncil.t.sol`; the contract
source itself is not part of the given material, so the operational
definitions below are modelled from the specification, with the observable
behaviour pinned down by that test file.  Addresses, amounts, output roots
and block numbers are modelled as `Nat`; opaque byte payloads as `List Nat`;
the opaque destination call performed at execution time is an environment
parameter `CallEnv` deciding success or failure of a call.
-/

/-- Modelled from the spec: the transaction record shape of the Types
library (`destination`, `executed`, `value`, `data`), consumed and produced
by the `transactions(id)` accessor; field order matches the source test's
destructuring. -/
structure MultiSigTransaction where
  destination : Nat
  executed : Bool
  value : Nat
  data : List Nat
deriving DecidableEq, Repr

/-- Modelled from the spec: the observable events of the contract
(Submission, Confirmation, Revocation, Execution, ExecutionFailure,
ValidationRequested, DeletionRequested) with their fields. -/
inductive SCEvent where
  | Submission : Nat → SCEvent
  | Confirmation : Nat → Nat → SCEvent
  | Revocation : Nat → Nat → SCEvent
  | Execution : Nat → SCEvent
  | ExecutionFailure : Nat → SCEvent
  | ValidationRequested : Nat → Nat → Nat → SCEvent
  | DeletionRequested : Nat → Nat → SCEvent
deriving DecidableEq, Repr

/-- Modelled from the spec: the hard-error taxonomy
(AuthorizationError `NotOwner`/`NotColosseum`, StateConflictError
`AlreadyConfirmed`/`NotConfirmed`/`AlreadyExecuted`/`DeletionAlreadyRequested`,
NotFoundError `NoSuchTransaction`, QuorumError `QuorumNotMet`). -/
inductive SCError where
  | NotOwner
  | NotColosseum
  | NoSuchTransaction
  | AlreadyConfirmed
  | NotConfirmed
  | AlreadyExecuted
  | QuorumNotMet
  | DeletionAlreadyRequested
deriving DecidableEq, Repr

/-- Modelled from the spec: the contract state — immutable configuration
(own address, COLOSSEUM, GOVERNOR, owner set, quorum threshold) together
with the transaction ledger (id = list index), the per-id confirmation
sets, the deletion-request registry (set of pending output indices), and
the emitted event log. -/
structure SCState where
  selfAddr : Nat
  colosseum : Nat
  governor : Nat
  owners : List Nat
  numConfirmationsRequired : Nat
  transactions : List MultiSigTransaction
  confirmations : List (List Nat)
  deletionRequested : List Nat
  events : List SCEvent
deriving DecidableEq, Repr

/-- The opaque execution environment: given destination, value and payload
of a staged call, decides whether the destination call succeeds. -/
abbrev CallEnv := Nat → Nat → List Nat → Bool

/-- The confirmation set recorded for a transaction id. -/
def confSet (s : SCState) (txId : Nat) : List Nat :=
  (s.confirmations[txId]?).getD []

/-- Size of the confirmation set of a transaction id. -/
def confCount (s : SCState) (txId : Nat) : Nat :=
  (confSet s txId).length

/-- The `executed` flag of the transaction at an id (`false` if absent). -/
def executedAt (s : SCState) (txId : Nat) : Bool :=
  ((s.transactions[txId]?).map MultiSigTransaction.executed).getD false

/-- Number of transactions ever submitted (ids are `0 ..< transactionCount`). -/
def transactionCount (s : SCState) : Nat :=
  s.transactions.length

/-- Bookkeeping invariant: one confirmation set per ledger entry. -/
def SCWF (s : SCState) : Prop :=
  s.confirmations.length = s.transactions.length

/-- Modelled from the spec: the shared internal execution routine (single
code path behind both `confirmTransaction` auto-execution and the explicit
`executeTransaction`).  Performs the opaque destination call; on success
sets `executed := true` and emits `Execution`, on callee failure leaves
`executed` untouched and emits `ExecutionFailure` instead of propagating
the failure. -/
def executeInternal (env : CallEnv) (txId : Nat) (s : SCState) : SCState :=
  match s.transactions[txId]? with
  | none => s
  | some t =>
    if env t.destination t.value t.data then
      { s with transactions := s.transactions.set txId { t with executed := true },
               events := s.events ++ [SCEvent.Execution txId] }
    else
      { s with events := s.events ++ [SCEvent.ExecutionFailure txId] }

/-- Modelled from the spec: recording a confirmation — adds the sender to
the confirmation set of a transaction id and emits `Confirmation`. -/
def addConfirmation (sender txId : Nat) (s : SCState) : SCState :=
  { s with confirmations := s.confirmations.set txId (confSet s txId ++ [sender]),
           events := s.events ++ [SCEvent.Confirmation sender txId] }

/-- Modelled from the spec: `confirmTransaction(id)`.  Caller must be a
registered owner (`NotOwner`), the transaction must exist
(`NoSuchTransaction`), the caller must not have already confirmed
(`AlreadyConfirmed`).  Adds the caller to the confirmation set, emits
`Confirmation`, and if the set size now meets the quorum threshold and the
transaction is not yet executed, attempts execution synchronously via the
shared internal routine (non-fatal on callee failure). -/
def confirmTransaction (env : CallEnv) (sender txId : Nat) (s : SCState) :
    Except SCError SCState :=
  if sender ∈ s.owners then
    if txId < s.transactions.length then
      if sender ∈ confSet s txId then
        .error .AlreadyConfirmed
      else
        if s.numConfirmationsRequired ≤ confCount (addConfirmation sender txId s) txId ∧
            executedAt s txId = false then
          .ok (executeInternal env txId (addConfirmation sender txId s))
        else
          .ok (addConfirmation sender txId s)
    else
      .error .NoSuchTransaction
  else
    .error .NotOwner

/-- Modelled from the spec: `executeTransaction(id)`.  The transaction must
exist (`NoSuchTransaction`) and not be executed (`AlreadyExecuted`); the
confirmation-set size must meet the quorum threshold (`QuorumNotMet`).
Then the shared internal execution routine runs; a callee failure is
absorbed into an `ExecutionFailure` event rather than failing the call. -/
def executeTransaction (env : CallEnv) (txId : Nat) (s : SCState) :
    Except SCError SCState :=
  if txId < s.transactions.length then
    if executedAt s txId then
      .error .AlreadyExecuted
    else if confCount s txId < s.numConfirmationsRequired then
      .error .QuorumNotMet
    else
      .ok (executeInternal env txId s)
  else
    .error .NoSuchTransaction

/-- Modelled from the spec: `revokeConfirmation(id)`.  Caller must be a
registered owner (`NotOwner`) and currently in the confirmation set
(`NotConfirmed`); the transaction must not be executed (`AlreadyExecuted`).
Removes the caller from the set and emits `Revocation`. -/
def revokeConfirmation (sender txId : Nat) (s : SCState) :
    Except SCError SCState :=
  if sender ∈ s.owners then
    if sender ∈ confSet s txId then
      if executedAt s txId then
        .error .AlreadyExecuted
      else
        .ok { s with
                confirmations :=
                  s.confirmations.set txId ((confSet s txId).filter (fun o => o != sender)),
                events := s.events ++ [SCEvent.Revocation sender txId] }
    else
      .error .NotConfirmed
  else
    .error .NotOwner

/-- Modelled from the spec: the internal submission routine.  Appends a new
transaction with `executed = false` and an empty confirmation set, assigns
the next sequential id, and emits `Submission`. -/
def submitInternal (dest value : Nat) (data : List Nat) (s : SCState) :
    Nat × SCState :=
  (s.transactions.length,
   { s with transactions := s.transactions ++ [⟨dest, false, value, data⟩],
            confirmations := s.confirmations ++ [[]],
            events := s.events ++ [SCEvent.Submission s.transactions.length] })

/-- Modelled from the spec: `submitTransaction(destination, value, data)`.
Caller must be a registered owner (`NotOwner`).  Appends the transaction
via the internal submission routine and then implicitly confirms on behalf
of the submitting owner by invoking `confirmTransaction` with the new id
("propose + auto-confirm" in one step). -/
def submitTransaction (env : CallEnv) (sender dest value : Nat) (data : List Nat)
    (s : SCState) : Except SCError (Nat × SCState) :=
  if sender ∈ s.owners then
    match confirmTransaction env sender (submitInternal dest value data s).1
        (submitInternal dest value data s).2 with
    | .ok s2 => .ok ((submitInternal dest value data s).1, s2)
    | .error e => .error e
  else
    .error .NotOwner

/-- Modelled from the spec: the payload encoding "validate
output(outputRoot, l2BlockNumber, extraData)", kept abstract. -/
def encodeValidate (outputRoot l2BlockNumber : Nat) (extra : List Nat) : List Nat :=
  outputRoot :: l2BlockNumber :: extra

/-- Modelled from the spec: the payload encoding "delete
output(outputIndex)", kept abstract. -/
def encodeDelete (outputIndex : Nat) : List Nat :=
  [outputIndex]

/-- Modelled from the spec: staging a validation proposal — submits a
self-targeted transaction through the internal submission path and emits
`ValidationRequested` at proposal time (before quorum). -/
def proposeValidation (outputRoot l2BlockNumber : Nat) (extra : List Nat)
    (s : SCState) : Nat × SCState :=
  let p := submitInternal s.selfAddr 0 (encodeValidate outputRoot l2BlockNumber extra) s
  (p.1, { p.2 with events :=
      p.2.events ++ [SCEvent.ValidationRequested p.1 outputRoot l2BlockNumber] })

/-- Modelled from the spec: `requestValidation(outputRoot, l2BlockNumber,
extraData)`.  Caller must be exactly the bound Colosseum address
(`NotColosseum`); this entry point is not gated by owner membership.
Submits a self-targeted transaction through the internal submission path,
emits `ValidationRequested` at proposal time, and auto-confirms on behalf
of the submitter only if the submitter happens to be a registered owner. -/
def requestValidation (env : CallEnv) (sender outputRoot l2BlockNumber : Nat)
    (extra : List Nat) (s : SCState) : Except SCError SCState :=
  if sender = s.colosseum then
    if sender ∈ s.owners then
      match confirmTransaction env sender (proposeValidation outputRoot l2BlockNumber extra s).1
          (proposeValidation outputRoot l2BlockNumber extra s).2 with
      | .ok s3 => .ok s3
      | .error e => .error e
    else
      .ok (proposeValidation outputRoot l2BlockNumber extra s).2
  else
    .error .NotColosseum

/-- Modelled from the spec: marking the deletion-request registry entry for
an output index as pending. -/
def markDeletion (outputIndex : Nat) (s : SCState) : SCState :=
  { s with deletionRequested :=
      if outputIndex ∈ s.deletionRequested then s.deletionRequested
      else s.deletionRequested ++ [outputIndex] }

/-- Modelled from the spec: `requestDeletion(outputIndex, force)`.  Caller
must be a registered owner (`NotOwner`).  If `force` is false and the
registry already records a pending deletion request for `outputIndex` the
call fails with `DeletionAlreadyRequested`; `force = true` bypasses the
check.  On success marks the registry entry pending, submits a
self-targeted transaction via the owner-gated `submitTransaction`
(propose + auto-confirm), and emits `DeletionRequested` at proposal time. -/
def requestDeletion (env : CallEnv) (sender outputIndex : Nat) (force : Bool)
    (s : SCState) : Except SCError SCState :=
  if sender ∈ s.owners then
    if force = false ∧ outputIndex ∈ s.deletionRequested then
      .error .DeletionAlreadyRequested
    else
      match submitTransaction env sender s.selfAddr 0 (encodeDelete outputIndex)
          (markDeletion outputIndex s) with
      | .ok p => .ok { p.2 with events := p.2.events ++ [SCEvent.DeletionRequested p.1 outputIndex] }
      | .error e => .error e
  else
    .error .NotOwner

/-- One external call to the contract: the six mutating entry points. -/
inductive SCOp where
  | submit (sender dest value : Nat) (data : List Nat)
  | confirm (sender txId : Nat)
  | revoke (sender txId : Nat)
  | execute (txId : Nat)
  | reqValidation (sender outputRoot l2BlockNumber : Nat) (extra : List Nat)
  | reqDeletion (sender outputIndex : Nat) (force : Bool)
deriving DecidableEq, Repr

/-- Atomic per-call semantics: a failing entry point aborts with no state
change (all hard errors are all-or-nothing); a successful one yields its
post-state. -/
def step (env : CallEnv) (op : SCOp) (s : SCState) : SCState :=
  match op with
  | .submit sender dest value data =>
    match submitTransaction env sender dest value data s with
    | .ok p => p.2
    | .error _ => s
  | .confirm sender txId =>
    match confirmTransaction env sender txId s with
    | .ok s2 => s2
    | .error _ => s
  | .revoke sender txId =>
    match revokeConfirmation sender txId s with
    | .ok s2 => s2
    | .error _ => s
  | .execute txId =>
    match executeTransaction env txId s with
    | .ok s2 => s2
    | .error _ => s
  | .reqValidation sender outputRoot l2BlockNumber extra =>
    match requestValidation env sender outputRoot l2BlockNumber extra s with
    | .ok s2 => s2
    | .error _ => s
  | .reqDeletion sender outputIndex force =>
    match requestDeletion env sender outputIndex force s with
    | .ok s2 => s2
    | .error _ => s

/-- An execution environment in which every destination call succeeds. -/
def envTrue : CallEnv := fun _ _ _ => true

/-- An execution environment in which every destination call fails. -/
def envFalse : CallEnv := fun _ _ _ => false

/-- A concrete deployment mirroring the test fixture: owners 1, 2, 3,
quorum threshold 2, Colosseum at address 9, Governor at address 8, the
contract itself at address 100, and an empty ledger. -/
def baseState : SCState :=
  { selfAddr := 100, colosseum := 9, governor := 8, owners := [1, 2, 3],
    numConfirmationsRequired := 2, transactions := [], confirmations := [],
    deletionRequested := [], events := [] }

/-- `baseState` after owner 1 has submitted (and auto-confirmed) one
transaction targeting address 5. -/
def oneTxState : SCState :=
  { baseState with
      transactions := [⟨5, false, 0, [7]⟩],
      confirmations := [[1]],
      events := [SCEvent.Submission 0, SCEvent.Confirmation 1 0] }

/-- `oneTxState` after owner 2's quorum-crossing confirmation. -/
def oneTxConfirmed : SCState := step envTrue (SCOp.confirm 2 0) oneTxState

/-- A deployment holding one already-executed transaction confirmed by
owner 1. -/
def executedTxState : SCState :=
  { baseState with transactions := [⟨5, true, 0, [7]⟩], confirmations := [[1]] }

/-- `baseState` with a pending deletion request for output index 1. -/
def pendingDeletionState : SCState :=
  { baseState with deletionRequested := [1] }

/-- `baseState` right after owner 1 submits a transaction targeting
address 5. -/
def submittedState : SCState := step envTrue (SCOp.submit 1 5 0 [7]) baseState

/-- A deployment holding one unexecuted transaction already confirmed by
owners 1 and 2 (quorum met, execution still pending). -/
def quorumReadyState : SCState :=
  { baseState with transactions := [⟨5, false, 0, [7]⟩], confirmations := [[1, 2]] }

/-! ## Basic facts about the internal routines -/

theorem executeInternal_confirmations (env : CallEnv) (txId : Nat) (s : SCState) :
    (executeInternal env txId s).confirmations = s.confirmations := by
  unfold executeInternal
  split
  · rfl
  · split <;> rfl

theorem executeInternal_numReq (env : CallEnv) (txId : Nat) (s : SCState) :
    (executeInternal env txId s).numConfirmationsRequired = s.numConfirmationsRequired := by
  unfold executeInternal
  split
  · rfl
  · split <;> rfl

theorem executeInternal_length (env : CallEnv) (txId : Nat) (s : SCState) :
    (executeInternal env txId s).transactions.length = s.transactions.length := by
  unfold executeInternal
  split
  · rfl
  · split <;> simp

theorem confCount_executeInternal (env : CallEnv) (txId : Nat) (s : SCState) (i : Nat) :
    confCount (executeInternal env txId s) i = confCount s i := by
  unfold confCount confSet
  rw [executeInternal_confirmations]

theorem executedAt_executeInternal_ne (env : CallEnv) (txId : Nat) (s : SCState) (i : Nat)
    (h : i ≠ txId) :
    executedAt (executeInternal env txId s) i = executedAt s i := by
  unfold executeInternal
  split
  · rfl
  · split
    · unfold executedAt
      simp [List.getElem?_set_ne (Ne.symm h)]
    · rfl

theorem executedAt_executeInternal_of_true (env : CallEnv) (txId : Nat) (s : SCState) (i : Nat)
    (h : executedAt s i = true) :
    executedAt (executeInternal env txId s) i = true := by
  by_cases hi : i = txId
  · subst hi
    unfold executeInternal
    split
    · exact h
    · rename_i t ht
      split
      · have hlt : i < s.transactions.length := by
          by_contra hge
          rw [List.getElem?_eq_none (Nat.le_of_not_lt hge)] at ht
          cases ht
        unfold executedAt
        simp [List.getElem?_set_eq_of_lt _ hlt]
      · exact h
  · rw [executedAt_executeInternal_ne env txId s i hi]
    exact h

theorem executedAt_executeInternal_flip (env : CallEnv) (txId : Nat) (s : SCState) (i : Nat)
    (h0 : executedAt s i = false) (h1 : executedAt (executeInternal env txId s) i = true) :
    i = txId := by
  by_contra hi
  rw [executedAt_executeInternal_ne env txId s i hi, h0] at h1
  cases h1

theorem executedAt_executeInternal_success (env : CallEnv) (txId : Nat) (s : SCState)
    (t : MultiSigTransaction) (ht : s.transactions[txId]? = some t)
    (henv : env t.destination t.value t.data = true) :
    executedAt (executeInternal env txId s) txId = true := by
  unfold executeInternal
  split
  · rename_i heq
    rw [ht] at heq
    cases heq
  · rename_i t' heq
    rw [ht] at heq
    injection heq with h'
    subst h'
    rw [if_pos henv]
    have hlt : txId < s.transactions.length := by
      by_contra hge
      rw [List.getElem?_eq_none (Nat.le_of_not_lt hge)] at ht
      cases ht
    unfold executedAt
    simp [List.getElem?_set_eq_of_lt _ hlt]

theorem executeInternal_fail (env : CallEnv) (txId : Nat) (s : SCState)
    (t : MultiSigTransaction) (ht : s.transactions[txId]? = some t)
    (henv : env t.destination t.value t.data = false) :
    executeInternal env txId s =
      { s with events := s.events ++ [SCEvent.ExecutionFailure txId] } := by
  unfold executeInternal
  split
  · rename_i heq
    rw [ht] at heq
    cases heq
  · rename_i t' heq
    rw [ht] at heq
    injection heq with h'
    subst h'
    rw [if_neg]
    simp [henv]

theorem addConfirmation_transactions (sender txId : Nat) (s : SCState) :
    (addConfirmation sender txId s).transactions = s.transactions := rfl

theorem addConfirmation_numReq (sender txId : Nat) (s : SCState) :
    (addConfirmation sender txId s).numConfirmationsRequired = s.numConfirmationsRequired := rfl

theorem executedAt_addConfirmation (sender txId : Nat) (s : SCState) (i : Nat) :
    executedAt (addConfirmation sender txId s) i = executedAt s i := rfl

theorem confSet_addConfirmation_self (sender txId : Nat) (s : SCState)
    (h : txId < s.confirmations.length) :
    confSet (addConfirmation sender txId s) txId = confSet s txId ++ [sender] := by
  simp [confSet, addConfirmation, List.getElem?_set_eq_of_lt _ h]

theorem confSet_addConfirmation_ne (sender txId : Nat) (s : SCState) (j : Nat)
    (h : txId ≠ j) :
    confSet (addConfirmation sender txId s) j = confSet s j := by
  unfold confSet addConfirmation
  simp [List.getElem?_set_ne h]

theorem submitInternal_fst (dest value : Nat) (data : List Nat) (s : SCState) :
    (submitInternal dest value data s).1 = s.transactions.length := rfl

theorem submitInternal_length (dest value : Nat) (data : List Nat) (s : SCState) :
    (submitInternal dest value data s).2.transactions.length = s.transactions.length + 1 := by
  simp [submitInternal]

theorem submitInternal_numReq (dest value : Nat) (data : List Nat) (s : SCState) :
    (submitInternal dest value data s).2.numConfirmationsRequired =
      s.numConfirmationsRequired := rfl

theorem executedAt_submitInternal (dest value : Nat) (data : List Nat) (s : SCState) (i : Nat) :
    executedAt (submitInternal dest value data s).2 i = executedAt s i := by
  unfold executedAt submitInternal
  rcases Nat.lt_trichotomy i s.transactions.length with h | h | h
  · simp [List.getElem?_append, h]
  · subst h
    simp [List.getElem?_append_right, List.getElem?_eq_none (Nat.le_refl _)]
  · have h1 : s.transactions.length ≤ i := Nat.le_of_lt h
    rw [List.getElem?_append_right h1, List.getElem?_eq_none h1]
    have h2 : i - s.transactions.length = (i - s.transactions.length - 1) + 1 := by omega
    rw [h2]
    simp

theorem confSet_submitInternal_new (dest value : Nat) (data : List Nat) (s : SCState)
    (hwf : SCWF s) :
    confSet (submitInternal dest value data s).2 s.transactions.length = [] := by
  unfold confSet submitInternal
  unfold SCWF at hwf
  simp only []
  rw [← hwf]
  simp [List.getElem?_append_right (Nat.le_refl _)]

theorem confSet_submitInternal_old (dest value : Nat) (data : List Nat) (s : SCState) (i : Nat)
    (h : i < s.confirmations.length) :
    confSet (submitInternal dest value data s).2 i = confSet s i := by
  unfold confSet submitInternal
  simp [List.getElem?_append, h]

/-! ## Inversion and progress lemmas for the entry points -/

theorem confirmTransaction_ok_inv (env : CallEnv) (sender txId : Nat) (s s' : SCState)
    (h : confirmTransaction env sender txId s = .ok s') :
    sender ∈ s.owners ∧ txId < s.transactions.length ∧ sender ∉ confSet s txId ∧
    ((s.numConfirmationsRequired ≤ confCount (addConfirmation sender txId s) txId ∧
        executedAt s txId = false ∧
        s' = executeInternal env txId (addConfirmation sender txId s)) ∨
      (¬(s.numConfirmationsRequired ≤ confCount (addConfirmation sender txId s) txId ∧
          executedAt s txId = false) ∧
        s' = addConfirmation sender txId s)) := by
  unfold confirmTransaction at h
  split at h
  · rename_i hown
    split at h
    · rename_i hlt
      split at h
      · cases h
      · rename_i hnc
        split at h
        · rename_i hguard
          injection h with h'
          exact ⟨hown, hlt, hnc, Or.inl ⟨hguard.1, hguard.2, h'.symm⟩⟩
        · rename_i hguard
          injection h with h'
          exact ⟨hown, hlt, hnc, Or.inr ⟨hguard, h'.symm⟩⟩
    · cases h
  · cases h

theorem confirmTransaction_progress (env : CallEnv) (sender txId : Nat) (s : SCState)
    (hown : sender ∈ s.owners) (hlt : txId < s.transactions.length)
    (hnc : sender ∉ confSet s txId) :
    ∃ s', confirmTransaction env sender txId s = .ok s' := by
  unfold confirmTransaction
  rw [if_pos hown, if_pos hlt, if_neg hnc]
  split
  · exact ⟨_, rfl⟩
  · exact ⟨_, rfl⟩

theorem executeTransaction_ok_inv (env : CallEnv) (txId : Nat) (s s' : SCState)
    (h : executeTransaction env txId s = .ok s') :
    txId < s.transactions.length ∧ executedAt s txId = false ∧
    s.numConfirmationsRequired ≤ confCount s txId ∧
    s' = executeInternal env txId s := by
  unfold executeTransaction at h
  split at h
  · rename_i hlt
    split at h
    · cases h
    · rename_i hex
      split at h
      · cases h
      · rename_i hq
        injection h with h'
        exact ⟨hlt, by simpa using hex, Nat.le_of_not_lt hq, h'.symm⟩
  · cases h

theorem executeTransaction_progress (env : CallEnv) (txId : Nat) (s : SCState)
    (hlt : txId < s.transactions.length) (hex : executedAt s txId = false)
    (hq : s.numConfirmationsRequired ≤ confCount s txId) :
    executeTransaction env txId s = .ok (executeInternal env txId s) := by
  unfold executeTransaction
  rw [if_pos hlt, if_neg (by simp [hex]), if_neg (Nat.not_lt.mpr hq)]

theorem submitTransaction_ok_inv (env : CallEnv) (sender dest value : Nat) (data : List Nat)
    (s : SCState) (txId : Nat) (s' : SCState)
    (h : submitTransaction env sender dest value data s = .ok (txId, s')) :
    sender ∈ s.owners ∧ txId = s.transactions.length ∧
    confirmTransaction env sender txId (submitInternal dest value data s).2 = .ok s' := by
  unfold submitTransaction at h
  split at h
  · rename_i hown
    split at h
    · rename_i s2 hc
      injection h with h'
      have h1 : (submitInternal dest value data s).1 = txId := congrArg Prod.fst h'
      have h2 : s2 = s' := congrArg Prod.snd h'
      rw [submitInternal_fst] at h1
      subst h1
      subst h2
      exact ⟨hown, rfl, hc⟩
    · cases h
  · cases h

theorem submitTransaction_progress (env : CallEnv) (sender dest value : Nat) (data : List Nat)
    (s : SCState) (hwf : SCWF s) (hown : sender ∈ s.owners) :
    ∃ s', submitTransaction env sender dest value data s = .ok (s.transactions.length, s') := by
  unfold submitTransaction
  rw [if_pos hown]
  have hlt : (submitInternal dest value data s).1 <
      (submitInternal dest value data s).2.transactions.length := by
    rw [submitInternal_fst, submitInternal_length]
    omega
  have hnc : sender ∉ confSet (submitInternal dest value data s).2
      (submitInternal dest value data s).1 := by
    rw [submitInternal_fst, confSet_submitInternal_new dest value data s hwf]
    simp
  obtain ⟨s2, hs2⟩ :=
    confirmTransaction_progress env sender (submitInternal dest value data s).1
      (submitInternal dest value data s).2 hown hlt hnc
  refine ⟨s2, ?_⟩
  rw [hs2]
  rfl

theorem executedAt_eq_of_transactions_eq (s1 s2 : SCState) (i : Nat)
    (h : s1.transactions = s2.transactions) : executedAt s1 i = executedAt s2 i := by
  unfold executedAt
  rw [h]

theorem confSet_eq_of_confirmations_eq (s1 s2 : SCState) (i : Nat)
    (h : s1.confirmations = s2.confirmations) : confSet s1 i = confSet s2 i := by
  unfold confSet
  rw [h]

theorem proposeValidation_fst (outputRoot l2BlockNumber : Nat) (extra : List Nat)
    (s : SCState) :
    (proposeValidation outputRoot l2BlockNumber extra s).1 = s.transactions.length := rfl

theorem proposeValidation_transactions (outputRoot l2BlockNumber : Nat) (extra : List Nat)
    (s : SCState) :
    (proposeValidation outputRoot l2BlockNumber extra s).2.transactions =
      (submitInternal s.selfAddr 0 (encodeValidate outputRoot l2BlockNumber extra) s).2.transactions := rfl

theorem proposeValidation_confirmations (outputRoot l2BlockNumber : Nat) (extra : List Nat)
    (s : SCState) :
    (proposeValidation outputRoot l2BlockNumber extra s).2.confirmations =
      (submitInternal s.selfAddr 0 (encodeValidate outputRoot l2BlockNumber extra) s).2.confirmations := rfl

theorem proposeValidation_numReq (outputRoot l2BlockNumber : Nat) (extra : List Nat)
    (s : SCState) :
    (proposeValidation outputRoot l2BlockNumber extra s).2.numConfirmationsRequired =
      s.numConfirmationsRequired := rfl

theorem executedAt_proposeValidation (outputRoot l2BlockNumber : Nat) (extra : List Nat)
    (s : SCState) (i : Nat) :
    executedAt (proposeValidation outputRoot l2BlockNumber extra s).2 i = executedAt s i := by
  rw [executedAt_eq_of_transactions_eq _ _ i
    (proposeValidation_transactions outputRoot l2BlockNumber extra s)]
  exact executedAt_submitInternal _ _ _ _ _

theorem markDeletion_transactions (outputIndex : Nat) (s : SCState) :
    (markDeletion outputIndex s).transactions = s.transactions := rfl

theorem markDeletion_confirmations (outputIndex : Nat) (s : SCState) :
    (markDeletion outputIndex s).confirmations = s.confirmations := rfl

theorem markDeletion_numReq (outputIndex : Nat) (s : SCState) :
    (markDeletion outputIndex s).numConfirmationsRequired = s.numConfirmationsRequired := rfl

theorem markDeletion_owners (outputIndex : Nat) (s : SCState) :
    (markDeletion outputIndex s).owners = s.owners := rfl

theorem requestValidation_ok_inv (env : CallEnv) (sender outputRoot l2BlockNumber : Nat)
    (extra : List Nat) (s s' : SCState)
    (h : requestValidation env sender outputRoot l2BlockNumber extra s = .ok s') :
    sender = s.colosseum ∧
    ((sender ∈ s.owners ∧
        confirmTransaction env sender (proposeValidation outputRoot l2BlockNumber extra s).1
          (proposeValidation outputRoot l2BlockNumber extra s).2 = .ok s') ∨
      (sender ∉ s.owners ∧ s' = (proposeValidation outputRoot l2BlockNumber extra s).2)) := by
  unfold requestValidation at h
  split at h
  · rename_i hcol
    split at h
    · rename_i hown
      split at h
      · rename_i s3 hc
        injection h with h'
        subst h'
        exact ⟨hcol, Or.inl ⟨hown, hc⟩⟩
      · cases h
    · rename_i hown
      injection h with h'
      exact ⟨hcol, Or.inr ⟨hown, h'.symm⟩⟩
  · cases h

theorem requestDeletion_ok_inv (env : CallEnv) (sender outputIndex : Nat) (force : Bool)
    (s s' : SCState)
    (h : requestDeletion env sender outputIndex force s = .ok s') :
    sender ∈ s.owners ∧ ¬(force = false ∧ outputIndex ∈ s.deletionRequested) ∧
    ∃ txId smid, submitTransaction env sender s.selfAddr 0 (encodeDelete outputIndex)
        (markDeletion outputIndex s) = .ok (txId, smid) ∧
      s' = { smid with events := smid.events ++ [SCEvent.DeletionRequested txId outputIndex] } := by
  unfold requestDeletion at h
  split at h
  · rename_i hown
    split at h
    · cases h
    · rename_i hguard
      split at h
      · rename_i p hp
        injection h with h'
        exact ⟨hown, hguard, p.1, p.2, hp, h'.symm⟩
      · cases h
  · cases h

/-! ## The `executed` flag across each entry point -/

theorem confirmTransaction_ok_executed (env : CallEnv) (sender txId : Nat) (s s' : SCState)
    (h : confirmTransaction env sender txId s = .ok s') (i : Nat) :
    (executedAt s i = true → executedAt s' i = true) ∧
    (executedAt s i = false → executedAt s' i = true →
      s.numConfirmationsRequired ≤ confCount s' i) := by
  obtain ⟨hown, hlt, hnc, hcase⟩ := confirmTransaction_ok_inv env sender txId s s' h
  rcases hcase with ⟨hq, hex, rfl⟩ | ⟨hng, rfl⟩
  · constructor
    · intro htrue
      apply executedAt_executeInternal_of_true
      rw [executedAt_addConfirmation]
      exact htrue
    · intro h0 h1
      have h0' : executedAt (addConfirmation sender txId s) i = false := by
        rw [executedAt_addConfirmation]
        exact h0
      have hi : i = txId := executedAt_executeInternal_flip _ _ _ _ h0' h1
      subst hi
      rw [confCount_executeInternal]
      exact hq
  · constructor
    · intro htrue
      rw [executedAt_addConfirmation]
      exact htrue
    · intro h0 h1
      rw [executedAt_addConfirmation, h0] at h1
      cases h1

theorem executeTransaction_ok_executed (env : CallEnv) (txId : Nat) (s s' : SCState)
    (h : executeTransaction env txId s = .ok s') (i : Nat) :
    (executedAt s i = true → executedAt s' i = true) ∧
    (executedAt s i = false → executedAt s' i = true →
      s.numConfirmationsRequired ≤ confCount s' i) := by
  obtain ⟨hlt, hex, hq, rfl⟩ := executeTransaction_ok_inv env txId s s' h
  constructor
  · exact executedAt_executeInternal_of_true env txId s i
  · intro h0 h1
    have hi : i = txId := executedAt_executeInternal_flip _ _ _ _ h0 h1
    subst hi
    rw [confCount_executeInternal]
    exact hq

theorem submitTransaction_ok_executed (env : CallEnv) (sender dest value : Nat)
    (data : List Nat) (s : SCState) (txId : Nat) (s' : SCState)
    (h : submitTransaction env sender dest value data s = .ok (txId, s')) (i : Nat) :
    (executedAt s i = true → executedAt s' i = true) ∧
    (executedAt s i = false → executedAt s' i = true →
      s.numConfirmationsRequired ≤ confCount s' i) := by
  obtain ⟨hown, htx, hc⟩ := submitTransaction_ok_inv env sender dest value data s txId s' h
  have hmid := confirmTransaction_ok_executed env sender txId _ s' hc i
  constructor
  · intro ht
    exact hmid.1 (by rw [executedAt_submitInternal]; exact ht)
  · intro h0 h1
    have hq := hmid.2 (by rw [executedAt_submitInternal]; exact h0) h1
    rw [submitInternal_numReq] at hq
    exact hq

theorem requestValidation_ok_executed (env : CallEnv) (sender outputRoot l2BlockNumber : Nat)
    (extra : List Nat) (s s' : SCState)
    (h : requestValidation env sender outputRoot l2BlockNumber extra s = .ok s') (i : Nat) :
    (executedAt s i = true → executedAt s' i = true) ∧
    (executedAt s i = false → executedAt s' i = true →
      s.numConfirmationsRequired ≤ confCount s' i) := by
  obtain ⟨hcol, hcase⟩ := requestValidation_ok_inv env sender outputRoot l2BlockNumber extra s s' h
  rcases hcase with ⟨hown, hc⟩ | ⟨hown, rfl⟩
  · have hmid := confirmTransaction_ok_executed env sender
      (proposeValidation outputRoot l2BlockNumber extra s).1 _ s' hc i
    constructor
    · intro ht
      exact hmid.1 (by rw [executedAt_proposeValidation]; exact ht)
    · intro h0 h1
      have hq := hmid.2 (by rw [executedAt_proposeValidation]; exact h0) h1
      rw [proposeValidation_numReq] at hq
      exact hq
  · constructor
    · intro ht
      rw [executedAt_proposeValidation]
      exact ht
    · intro h0 h1
      rw [executedAt_proposeValidation, h0] at h1
      cases h1

theorem requestDeletion_ok_executed (env : CallEnv) (sender outputIndex : Nat) (force : Bool)
    (s s' : SCState)
    (h : requestDeletion env sender outputIndex force s = .ok s') (i : Nat) :
    (executedAt s i = true → executedAt s' i = true) ∧
    (executedAt s i = false → executedAt s' i = true →
      s.numConfirmationsRequired ≤ confCount s' i) := by
  obtain ⟨hown, hguard, txId, smid, hsub, rfl⟩ :=
    requestDeletion_ok_inv env sender outputIndex force s s' h
  have hmid := submitTransaction_ok_executed env sender s.selfAddr 0 (encodeDelete outputIndex)
    (markDeletion outputIndex s) txId smid hsub i
  have hexeq : ∀ j, executedAt (markDeletion outputIndex s) j = executedAt s j := by
    intro j
    exact executedAt_eq_of_transactions_eq _ _ j (markDeletion_transactions outputIndex s)
  have hfin_ex : executedAt
      { smid with events := smid.events ++ [SCEvent.DeletionRequested txId outputIndex] } i =
      executedAt smid i := rfl
  have hfin_cc : confCount
      { smid with events := smid.events ++ [SCEvent.DeletionRequested txId outputIndex] } i =
      confCount smid i := rfl
  constructor
  · intro ht
    rw [hfin_ex]
    exact hmid.1 (by rw [hexeq]; exact ht)
  · intro h0 h1
    rw [hfin_ex] at h1
    rw [hfin_cc]
    have hq := hmid.2 (by rw [hexeq]; exact h0) h1
    rw [markDeletion_numReq] at hq
    exact hq

/-! ## Further structural lemmas -/

theorem revokeConfirmation_ok_inv (sender txId : Nat) (s s' : SCState)
    (h : revokeConfirmation sender txId s = .ok s') :
    sender ∈ s.owners ∧ sender ∈ confSet s txId ∧ executedAt s txId = false ∧
    s' = { s with
             confirmations :=
               s.confirmations.set txId ((confSet s txId).filter (fun o => o != sender)),
             events := s.events ++ [SCEvent.Revocation sender txId] } := by
  unfold revokeConfirmation at h
  split at h
  · rename_i hown
    split at h
    · rename_i hc
      split at h
      · cases h
      · rename_i hex
        injection h with h'
        exact ⟨hown, hc, by simpa using hex, h'.symm⟩
    · cases h
  · cases h

theorem revokeConfirmation_ok_executed (sender txId : Nat) (s s' : SCState)
    (h : revokeConfirmation sender txId s = .ok s') (i : Nat) :
    (executedAt s i = true → executedAt s' i = true) ∧
    (executedAt s i = false → executedAt s' i = true →
      s.numConfirmationsRequired ≤ confCount s' i) := by
  obtain ⟨hown, hc, hex, rfl⟩ := revokeConfirmation_ok_inv sender txId s s' h
  refine ⟨fun ht => ht, fun h0 h1 => ?_⟩
  have h1' : executedAt s i = true := h1
  rw [h0] at h1'
  cases h1'

theorem executeInternal_events_mono (env : CallEnv) (txId : Nat) (s : SCState) (e : SCEvent)
    (h : e ∈ s.events) : e ∈ (executeInternal env txId s).events := by
  unfold executeInternal
  split
  · exact h
  · split <;> simp [h]

theorem confirmTransaction_ok_events_mono (env : CallEnv) (sender txId : Nat) (s s' : SCState)
    (h : confirmTransaction env sender txId s = .ok s') (e : SCEvent)
    (he : e ∈ s.events) : e ∈ s'.events := by
  obtain ⟨_, _, _, hcase⟩ := confirmTransaction_ok_inv env sender txId s s' h
  rcases hcase with ⟨_, _, rfl⟩ | ⟨_, rfl⟩
  · apply executeInternal_events_mono
    simp [addConfirmation, he]
  · simp [addConfirmation, he]

theorem confirmTransaction_ok_length (env : CallEnv) (sender txId : Nat) (s s' : SCState)
    (h : confirmTransaction env sender txId s = .ok s') :
    s'.transactions.length = s.transactions.length := by
  obtain ⟨_, _, _, hcase⟩ := confirmTransaction_ok_inv env sender txId s s' h
  rcases hcase with ⟨_, _, rfl⟩ | ⟨_, rfl⟩
  · rw [executeInternal_length]
    rfl
  · rfl

theorem submitTransaction_ok_length (env : CallEnv) (sender dest value : Nat) (data : List Nat)
    (s : SCState) (txId : Nat) (s' : SCState)
    (h : submitTransaction env sender dest value data s = .ok (txId, s')) :
    s'.transactions.length = s.transactions.length + 1 := by
  obtain ⟨_, _, hc⟩ := submitTransaction_ok_inv env sender dest value data s txId s' h
  rw [confirmTransaction_ok_length env sender txId _ s' hc, submitInternal_length]

theorem submitTransaction_ok_submission_event (env : CallEnv) (sender dest value : Nat)
    (data : List Nat) (s : SCState) (txId : Nat) (s' : SCState)
    (h : submitTransaction env sender dest value data s = .ok (txId, s')) :
    SCEvent.Submission s.transactions.length ∈ s'.events := by
  obtain ⟨_, _, hc⟩ := submitTransaction_ok_inv env sender dest value data s txId s' h
  apply confirmTransaction_ok_events_mono env sender txId _ s' hc
  simp [submitInternal]

theorem proposeValidation_length (outputRoot l2BlockNumber : Nat) (extra : List Nat)
    (s : SCState) :
    (proposeValidation outputRoot l2BlockNumber extra s).2.transactions.length =
      s.transactions.length + 1 := by
  rw [proposeValidation_transactions, submitInternal_length]

theorem proposeValidation_submission_event (outputRoot l2BlockNumber : Nat) (extra : List Nat)
    (s : SCState) :
    SCEvent.Submission s.transactions.length ∈
      (proposeValidation outputRoot l2BlockNumber extra s).2.events := by
  simp [proposeValidation, submitInternal]

/-- The fields other than `executed` of any ledger entry survive the
internal execution routine. -/
theorem executeInternal_entry (env : CallEnv) (txId : Nat) (s : SCState) (i : Nat)
    (t : MultiSigTransaction) (h : s.transactions[i]? = some t) :
    ∃ t', (executeInternal env txId s).transactions[i]? = some t' ∧
      t'.destination = t.destination ∧ t'.value = t.value ∧ t'.data = t.data := by
  unfold executeInternal
  split
  · exact ⟨t, h, rfl, rfl, rfl⟩
  · rename_i t0 ht0
    split
    · by_cases hi : i = txId
      · subst hi
        rw [h] at ht0
        injection ht0 with h0
        subst h0
        have hlt : i < s.transactions.length := by
          by_contra hge
          rw [List.getElem?_eq_none (Nat.le_of_not_lt hge)] at h
          cases h
        refine ⟨{ t with executed := true }, ?_, rfl, rfl, rfl⟩
        simpa using List.getElem?_set_eq_of_lt { t with executed := true } hlt
      · refine ⟨t, ?_, rfl, rfl, rfl⟩
        simpa [List.getElem?_set_ne (Ne.symm hi)] using h
    · exact ⟨t, h, rfl, rfl, rfl⟩

theorem confirmTransaction_ok_entry (env : CallEnv) (sender txId : Nat) (s s' : SCState)
    (h : confirmTransaction env sender txId s = .ok s') (i : Nat) (t : MultiSigTransaction)
    (ht : s.transactions[i]? = some t) :
    ∃ t', s'.transactions[i]? = some t' ∧
      t'.destination = t.destination ∧ t'.value = t.value ∧ t'.data = t.data := by
  obtain ⟨_, _, _, hcase⟩ := confirmTransaction_ok_inv env sender txId s s' h
  rcases hcase with ⟨_, _, rfl⟩ | ⟨_, rfl⟩
  · exact executeInternal_entry env txId (addConfirmation sender txId s) i t ht
  · exact ⟨t, ht, rfl, rfl, rfl⟩

theorem submitInternal_entry (dest value : Nat) (data : List Nat) (s : SCState) (i : Nat)
    (t : MultiSigTransaction) (ht : s.transactions[i]? = some t) :
    (submitInternal dest value data s).2.transactions[i]? = some t := by
  have hlt : i < s.transactions.length := by
    by_contra hge
    rw [List.getElem?_eq_none (Nat.le_of_not_lt hge)] at ht
    cases ht
  unfold submitInternal
  simpa [List.getElem?_append, hlt] using ht

theorem submitTransaction_ok_entry (env : CallEnv) (sender dest value : Nat) (data : List Nat)
    (s : SCState) (txId : Nat) (s' : SCState)
    (h : submitTransaction env sender dest value data s = .ok (txId, s')) (i : Nat)
    (t : MultiSigTransaction) (ht : s.transactions[i]? = some t) :
    ∃ t', s'.transactions[i]? = some t' ∧
      t'.destination = t.destination ∧ t'.value = t.value ∧ t'.data = t.data := by
  obtain ⟨_, _, hc⟩ := submitTransaction_ok_inv env sender dest value data s txId s' h
  exact confirmTransaction_ok_entry env sender txId _ s' hc i t
    (submitInternal_entry dest value data s i t ht)

theorem executeTransaction_ok_entry (env : CallEnv) (txId : Nat) (s s' : SCState)
    (h : executeTransaction env txId s = .ok s') (i : Nat) (t : MultiSigTransaction)
    (ht : s.transactions[i]? = some t) :
    ∃ t', s'.transactions[i]? = some t' ∧
      t'.destination = t.destination ∧ t'.value = t.value ∧ t'.data = t.data := by
  obtain ⟨_, _, _, rfl⟩ := executeTransaction_ok_inv env txId s s' h
  exact executeInternal_entry env txId s i t ht

theorem requestValidation_ok_entry (env : CallEnv) (sender outputRoot l2BlockNumber : Nat)
    (extra : List Nat) (s s' : SCState)
    (h : requestValidation env sender outputRoot l2BlockNumber extra s = .ok s') (i : Nat)
    (t : MultiSigTransaction) (ht : s.transactions[i]? = some t) :
    ∃ t', s'.transactions[i]? = some t' ∧
      t'.destination = t.destination ∧ t'.value = t.value ∧ t'.data = t.data := by
  obtain ⟨_, hcase⟩ := requestValidation_ok_inv env sender outputRoot l2BlockNumber extra s s' h
  have hmid : (proposeValidation outputRoot l2BlockNumber extra s).2.transactions[i]? = some t := by
    rw [proposeValidation_transactions]
    exact submitInternal_entry _ _ _ s i t ht
  rcases hcase with ⟨_, hc⟩ | ⟨_, rfl⟩
  · exact confirmTransaction_ok_entry env sender _ _ s' hc i t hmid
  · exact ⟨t, hmid, rfl, rfl, rfl⟩

theorem requestDeletion_ok_entry (env : CallEnv) (sender outputIndex : Nat) (force : Bool)
    (s s' : SCState)
    (h : requestDeletion env sender outputIndex force s = .ok s') (i : Nat)
    (t : MultiSigTransaction) (ht : s.transactions[i]? = some t) :
    ∃ t', s'.transactions[i]? = some t' ∧
      t'.destination = t.destination ∧ t'.value = t.value ∧ t'.data = t.data := by
  obtain ⟨_, _, txId, smid, hsub, rfl⟩ := requestDeletion_ok_inv env sender outputIndex force s s' h
  exact submitTransaction_ok_entry env sender s.selfAddr 0 (encodeDelete outputIndex)
    (markDeletion outputIndex s) txId smid hsub i t ht

theorem revokeConfirmation_ok_entry (sender txId : Nat) (s s' : SCState)
    (h : revokeConfirmation sender txId s = .ok s') (i : Nat) (t : MultiSigTransaction)
    (ht : s.transactions[i]? = some t) :
    ∃ t', s'.transactions[i]? = some t' ∧
      t'.destination = t.destination ∧ t'.value = t.value ∧ t'.data = t.data := by
  obtain ⟨_, _, _, rfl⟩ := revokeConfirmation_ok_inv sender txId s s' h
  exact ⟨t, ht, rfl, rfl, rfl⟩

/-! ## Claims -/

theorem executed_pair_refl (s : SCState) (i : Nat) :
    (executedAt s i = true → executedAt s i = true) ∧
    (executedAt s i = false → executedAt s i = true →
      s.numConfirmationsRequired ≤ confCount s i) := by
  refine ⟨fun h => h, fun h0 h1 => ?_⟩
  rw [h0] at h1
  cases h1

/-- C1: for every transaction in the ledger, across any single call the
`executed` flag never reverts from true (so it transitions false→true at
most once, irreversibly), and whenever a call flips it to true the
transaction's confirmation-set size at the time of execution is at least
the quorum threshold. -/
theorem executed_irreversible_and_quorum_gated (env : CallEnv) (op : SCOp) (s : SCState)
    (i : Nat) :
    (executedAt s i = true → executedAt (step env op s) i = true) ∧
    (executedAt s i = false → executedAt (step env op s) i = true →
      s.numConfirmationsRequired ≤ confCount (step env op s) i) := by
  cases op with
  | submit sender dest value data =>
    simp only [step]
    cases hr : submitTransaction env sender dest value data s with
    | ok p => exact submitTransaction_ok_executed env sender dest value data s p.1 p.2 hr i
    | error e => exact executed_pair_refl s i
  | confirm sender txId =>
    simp only [step]
    cases hr : confirmTransaction env sender txId s with
    | ok s2 => exact confirmTransaction_ok_executed env sender txId s s2 hr i
    | error e => exact executed_pair_refl s i
  | revoke sender txId =>
    simp only [step]
    cases hr : revokeConfirmation sender txId s with
    | ok s2 => exact revokeConfirmation_ok_executed sender txId s s2 hr i
    | error e => exact executed_pair_refl s i
  | execute txId =>
    simp only [step]
    cases hr : executeTransaction env txId s with
    | ok s2 => exact executeTransaction_ok_executed env txId s s2 hr i
    | error e => exact executed_pair_refl s i
  | reqValidation sender outputRoot l2BlockNumber extra =>
    simp only [step]
    cases hr : requestValidation env sender outputRoot l2BlockNumber extra s with
    | ok s2 => exact requestValidation_ok_executed env sender outputRoot l2BlockNumber extra s s2 hr i
    | error e => exact executed_pair_refl s i
  | reqDeletion sender outputIndex force =>
    simp only [step]
    cases hr : requestDeletion env sender outputIndex force s with
    | ok s2 => exact requestDeletion_ok_executed env sender outputIndex force s s2 hr i
    | error e => exact executed_pair_refl s i

/-- Witness for C1 at the concrete quorum-crossing confirmation of the
test fixture. -/
theorem executed_irreversible_and_quorum_gated_witness :
    executedAt oneTxState 0 = false ∧
    executedAt (step envTrue (SCOp.confirm 2 0) oneTxState) 0 = true ∧
    oneTxState.numConfirmationsRequired ≤
      confCount (step envTrue (SCOp.confirm 2 0) oneTxState) 0 := by
  refine ⟨by decide, by decide, ?_⟩
  exact (executed_irreversible_and_quorum_gated envTrue (SCOp.confirm 2 0) oneTxState 0).2
    (by decide) (by decide)

/-- C2: when a successful `confirmTransaction` call leaves the quorum
threshold met on a previously unexecuted transaction, execution is
attempted synchronously within that same call, so the `executed` flag is
true on return whenever the destination call succeeds. -/
theorem confirm_crossing_quorum_executes_synchronously (env : CallEnv) (sender txId : Nat)
    (s s' : SCState) (t : MultiSigTransaction)
    (hok : confirmTransaction env sender txId s = .ok s')
    (ht : s.transactions[txId]? = some t)
    (hne : t.executed = false)
    (hq : s.numConfirmationsRequired ≤ confCount s' txId)
    (henv : env t.destination t.value t.data = true) :
    executedAt s' txId = true := by
  obtain ⟨hown, hlt, hnc, hcase⟩ := confirmTransaction_ok_inv env sender txId s s' hok
  have hexf : executedAt s txId = false := by
    unfold executedAt
    rw [ht]
    simp [hne]
  rcases hcase with ⟨hq2, hex2, rfl⟩ | ⟨hng, rfl⟩
  · exact executedAt_executeInternal_success env txId _ t ht henv
  · exact absurd ⟨hq, hexf⟩ hng

/-- Witness for C2: owner 2's confirmation crosses the quorum of the test
fixture and the transaction executes within that call. -/
theorem confirm_crossing_quorum_executes_synchronously_witness :
    executedAt oneTxConfirmed 0 = true :=
  confirm_crossing_quorum_executes_synchronously envTrue 2 0 oneTxState oneTxConfirmed
    ⟨5, false, 0, [7]⟩ (by rfl) (by rfl) (by rfl) (by decide) (by rfl)

/-- C3: a successful `submitTransaction` by an owner auto-confirms the
submitter — the submitter is in the confirmation set of the returned id,
and that freshly created set has size exactly 1. -/
theorem submit_auto_confirms_submitter (env : CallEnv) (sender dest value : Nat)
    (data : List Nat) (s : SCState) (txId : Nat) (s' : SCState)
    (hwf : SCWF s)
    (hok : submitTransaction env sender dest value data s = .ok (txId, s')) :
    sender ∈ confSet s' txId ∧ confCount s' txId = 1 := by
  obtain ⟨hown, htx, hc⟩ := submitTransaction_ok_inv env sender dest value data s txId s' hok
  obtain ⟨hown2, hlt2, hnc2, hcase⟩ := confirmTransaction_ok_inv env sender txId _ s' hc
  have hmidlen : txId < (submitInternal dest value data s).2.confirmations.length := by
    subst htx
    unfold submitInternal SCWF at *
    simp
    omega
  have hmidset : confSet (submitInternal dest value data s).2 txId = [] := by
    subst htx
    exact confSet_submitInternal_new dest value data s hwf
  have hset : confSet s' txId = [sender] := by
    rcases hcase with ⟨_, _, rfl⟩ | ⟨_, rfl⟩
    · rw [confSet_eq_of_confirmations_eq _ _ txId (executeInternal_confirmations env txId _)]
      rw [confSet_addConfirmation_self sender txId _ hmidlen, hmidset]
      rfl
    · rw [confSet_addConfirmation_self sender txId _ hmidlen, hmidset]
      rfl
  constructor
  · rw [hset]
    simp
  · unfold confCount
    rw [hset]
    rfl

/-- Witness for C3: owner 1 submits on the empty fixture ledger. -/
theorem submit_auto_confirms_submitter_witness :
    1 ∈ confSet submittedState 0 ∧ confCount submittedState 0 = 1 :=
  submit_auto_confirms_submitter envTrue 1 5 0 [7] baseState 0 submittedState
    (by rfl) (by rfl)

/-- C4: a failing destination call during execution is absorbed rather than
propagated: the enclosing `confirmTransaction` (auto-execute path) or
`executeTransaction` still returns successfully, the confirmation just
added stands, `executed` remains false, an `ExecutionFailure` event is
emitted, and the transaction remains retriable by a later
`executeTransaction` call. -/
theorem callee_failure_is_soft (env : CallEnv) (sender txId : Nat) (s : SCState)
    (t : MultiSigTransaction)
    (hwf : SCWF s)
    (ht : s.transactions[txId]? = some t)
    (hne : t.executed = false)
    (henv : env t.destination t.value t.data = false) :
    (sender ∈ s.owners → sender ∉ confSet s txId →
      ∃ s', confirmTransaction env sender txId s = .ok s' ∧
        sender ∈ confSet s' txId ∧ executedAt s' txId = false ∧
        (s.numConfirmationsRequired ≤ confCount s' txId →
          SCEvent.ExecutionFailure txId ∈ s'.events ∧
          ∀ env2 : CallEnv, ∃ s'', executeTransaction env2 txId s' = .ok s'')) ∧
    (s.numConfirmationsRequired ≤ confCount s txId →
      ∃ s', executeTransaction env txId s = .ok s' ∧
        confSet s' txId = confSet s txId ∧ executedAt s' txId = false ∧
        SCEvent.ExecutionFailure txId ∈ s'.events ∧
        ∀ env2 : CallEnv, ∃ s'', executeTransaction env2 txId s' = .ok s'') := by
  have hlt : txId < s.transactions.length := by
    by_contra hge
    rw [List.getElem?_eq_none (Nat.le_of_not_lt hge)] at ht
    cases ht
  have hexf : executedAt s txId = false := by
    unfold executedAt
    rw [ht]
    simp [hne]
  have hltc : txId < s.confirmations.length := by
    unfold SCWF at hwf
    omega
  constructor
  · intro hown hnc
    by_cases hg : s.numConfirmationsRequired ≤ confCount (addConfirmation sender txId s) txId
    · have hcall : confirmTransaction env sender txId s =
          .ok (executeInternal env txId (addConfirmation sender txId s)) := by
        unfold confirmTransaction
        rw [if_pos hown, if_pos hlt, if_neg hnc, if_pos ⟨hg, hexf⟩]
      have hfail := executeInternal_fail env txId (addConfirmation sender txId s) t ht henv
      refine ⟨_, hcall, ?_, ?_, fun hq => ⟨?_, fun env2 =>
        ⟨_, executeTransaction_progress env2 txId _ ?_ ?_ ?_⟩⟩⟩
      · rw [confSet_eq_of_confirmations_eq _ _ txId (executeInternal_confirmations env txId _),
          confSet_addConfirmation_self sender txId s hltc]
        simp
      · rw [hfail]
        exact hexf
      · rw [hfail]
        simp [addConfirmation]
      · rw [hfail]
        exact hlt
      · rw [hfail]
        exact hexf
      · rw [hfail]
        exact hg
    · have hcall : confirmTransaction env sender txId s =
          .ok (addConfirmation sender txId s) := by
        unfold confirmTransaction
        rw [if_pos hown, if_pos hlt, if_neg hnc, if_neg (fun hand => hg hand.1)]
      refine ⟨_, hcall, ?_, ?_, fun hq => absurd hq hg⟩
      · rw [confSet_addConfirmation_self sender txId s hltc]
        simp
      · exact hexf
  · intro hq
    have hfail := executeInternal_fail env txId s t ht henv
    refine ⟨_, executeTransaction_progress env txId s hlt hexf hq, ?_, ?_, ?_, fun env2 =>
      ⟨_, executeTransaction_progress env2 txId _ ?_ ?_ ?_⟩⟩
    · rw [hfail]
      rfl
    · rw [hfail]
      exact hexf
    · rw [hfail]
      simp
    · rw [hfail]
      exact hlt
    · rw [hfail]
      exact hexf
    · rw [hfail]
      exact hq

/-- Witness for C4: the explicit execution path on a quorum-ready fixture
whose destination call fails. -/
theorem callee_failure_is_soft_witness :
    ∃ s', executeTransaction envFalse 0 quorumReadyState = .ok s' ∧
      confSet s' 0 = confSet quorumReadyState 0 ∧ executedAt s' 0 = false ∧
      SCEvent.ExecutionFailure 0 ∈ s'.events ∧
      ∀ env2 : CallEnv, ∃ s'', executeTransaction env2 0 s' = .ok s'' :=
  (callee_failure_is_soft envFalse 1 0 quorumReadyState ⟨5, false, 0, [7]⟩
      (by rfl) (by rfl) (by rfl) (by rfl)).2 (by decide)

/-- C5: `submitTransaction` by a caller that is not a registered owner
fails with `NotOwner` and leaves all state unchanged — in particular no
transaction is appended and the transaction count does not change. -/
theorem submit_by_non_owner_rejected (env : CallEnv) (sender dest value : Nat)
    (data : List Nat) (s : SCState) (h : sender ∉ s.owners) :
    submitTransaction env sender dest value data s = .error SCError.NotOwner ∧
    step env (SCOp.submit sender dest value data) s = s ∧
    transactionCount (step env (SCOp.submit sender dest value data) s) =
      transactionCount s := by
  have h1 : submitTransaction env sender dest value data s = .error SCError.NotOwner := by
    unfold submitTransaction
    rw [if_neg h]
  have h2 : step env (SCOp.submit sender dest value data) s = s := by
    simp only [step]
    rw [h1]
  exact ⟨h1, h2, by rw [h2]⟩

/-- Witness for C5: address 4 is not an owner of the fixture. -/
theorem submit_by_non_owner_rejected_witness :
    submitTransaction envTrue 4 5 0 [7] baseState = .error SCError.NotOwner ∧
    step envTrue (SCOp.submit 4 5 0 [7]) baseState = baseState ∧
    transactionCount (step envTrue (SCOp.submit 4 5 0 [7]) baseState) =
      transactionCount baseState :=
  submit_by_non_owner_rejected envTrue 4 5 0 [7] baseState (by decide)

/-- C6: `requestValidation` by any caller other than the bound Colosseum
address fails with `NotColosseum` and produces no new transaction (no state
change). -/
theorem requestValidation_by_non_colosseum_rejected (env : CallEnv)
    (sender outputRoot l2BlockNumber : Nat) (extra : List Nat) (s : SCState)
    (h : sender ≠ s.colosseum) :
    requestValidation env sender outputRoot l2BlockNumber extra s =
      .error SCError.NotColosseum ∧
    step env (SCOp.reqValidation sender outputRoot l2BlockNumber extra) s = s ∧
    transactionCount (step env (SCOp.reqValidation sender outputRoot l2BlockNumber extra) s) =
      transactionCount s := by
  have h1 : requestValidation env sender outputRoot l2BlockNumber extra s =
      .error SCError.NotColosseum := by
    unfold requestValidation
    rw [if_neg h]
  have h2 : step env (SCOp.reqValidation sender outputRoot l2BlockNumber extra) s = s := by
    simp only [step]
    rw [h1]
  exact ⟨h1, h2, by rw [h2]⟩

/-- Witness for C6: address 7 is not the fixture's Colosseum (address 9). -/
theorem requestValidation_by_non_colosseum_rejected_witness :
    requestValidation envTrue 7 11 3 [7] baseState = .error SCError.NotColosseum ∧
    step envTrue (SCOp.reqValidation 7 11 3 [7]) baseState = baseState ∧
    transactionCount (step envTrue (SCOp.reqValidation 7 11 3 [7]) baseState) =
      transactionCount baseState :=
  requestValidation_by_non_colosseum_rejected envTrue 7 11 3 [7] baseState (by decide)

/-- C7: with a deletion request already pending for an output index, a
second `requestDeletion` with `force = false` by an owner fails with
`DeletionAlreadyRequested` and changes no state, while `force = true`
succeeds and produces a second, independent transaction id for the same
index. -/
theorem requestDeletion_pending_guard_and_force (env : CallEnv) (sender outputIndex : Nat)
    (s : SCState) (hwf : SCWF s) (hown : sender ∈ s.owners)
    (hpend : outputIndex ∈ s.deletionRequested) :
    (requestDeletion env sender outputIndex false s =
        .error SCError.DeletionAlreadyRequested ∧
      step env (SCOp.reqDeletion sender outputIndex false) s = s) ∧
    (∃ s', requestDeletion env sender outputIndex true s = .ok s' ∧
      transactionCount s' = transactionCount s + 1 ∧
      SCEvent.DeletionRequested (transactionCount s) outputIndex ∈ s'.events) := by
  have h1 : requestDeletion env sender outputIndex false s =
      .error SCError.DeletionAlreadyRequested := by
    unfold requestDeletion
    rw [if_pos hown, if_pos ⟨rfl, hpend⟩]
  constructor
  · refine ⟨h1, ?_⟩
    simp only [step]
    rw [h1]
  · have hwfm : SCWF (markDeletion outputIndex s) := hwf
    obtain ⟨smid, hsub⟩ := submitTransaction_progress env sender s.selfAddr 0
      (encodeDelete outputIndex) (markDeletion outputIndex s) hwfm hown
    have hcall : requestDeletion env sender outputIndex true s =
        .ok { smid with events := smid.events ++
          [SCEvent.DeletionRequested (markDeletion outputIndex s).transactions.length
            outputIndex] } := by
      unfold requestDeletion
      rw [if_pos hown, if_neg (by simp), hsub]
    refine ⟨_, hcall, ?_, ?_⟩
    · exact submitTransaction_ok_length env sender s.selfAddr 0 (encodeDelete outputIndex)
        (markDeletion outputIndex s) _ smid hsub
    · simp [transactionCount, markDeletion]

/-- Witness for C7 on the fixture with a pending deletion request for
output index 1. -/
theorem requestDeletion_pending_guard_and_force_witness :
    requestDeletion envTrue 1 1 false pendingDeletionState =
      .error SCError.DeletionAlreadyRequested ∧
    ∃ s', requestDeletion envTrue 1 1 true pendingDeletionState = .ok s' ∧
      transactionCount s' = transactionCount pendingDeletionState + 1 ∧
      SCEvent.DeletionRequested (transactionCount pendingDeletionState) 1 ∈ s'.events := by
  have h := requestDeletion_pending_guard_and_force envTrue 1 1 pendingDeletionState
    (by rfl) (by decide) (by decide)
  exact ⟨h.1.1, h.2⟩

/-- C8: transaction ids are assigned sequentially from 0 in strict call
order — every successful submission (generic or via
`requestValidation`/`requestDeletion`) creates the transaction with id
equal to the previous count and increments the count by one, so ids are
never reused — and the ledger is append-only: no call deletes an entry or
alters its `destination`, `value` or `data`. -/
theorem transaction_ids_sequential_ledger_append_only (env : CallEnv) (s : SCState) :
    (∀ sender dest value data txId s',
        submitTransaction env sender dest value data s = .ok (txId, s') →
        txId = transactionCount s ∧ transactionCount s' = transactionCount s + 1) ∧
    (∀ sender outputRoot l2BlockNumber extra s',
        requestValidation env sender outputRoot l2BlockNumber extra s = .ok s' →
        SCEvent.Submission (transactionCount s) ∈ s'.events ∧
        transactionCount s' = transactionCount s + 1) ∧
    (∀ sender outputIndex force s',
        requestDeletion env sender outputIndex force s = .ok s' →
        SCEvent.Submission (transactionCount s) ∈ s'.events ∧
        transactionCount s' = transactionCount s + 1) ∧
    (∀ (op : SCOp) (i : Nat) (t : MultiSigTransaction), s.transactions[i]? = some t →
        ∃ t' : MultiSigTransaction, (step env op s).transactions[i]? = some t' ∧
          t'.destination = t.destination ∧ t'.value = t.value ∧ t'.data = t.data) := by
  refine ⟨?_, ?_, ?_, ?_⟩
  · intro sender dest value data txId s' h
    obtain ⟨_, htx, _⟩ := submitTransaction_ok_inv env sender dest value data s txId s' h
    exact ⟨htx, submitTransaction_ok_length env sender dest value data s txId s' h⟩
  · intro sender outputRoot l2BlockNumber extra s' h
    obtain ⟨hcol, hcase⟩ :=
      requestValidation_ok_inv env sender outputRoot l2BlockNumber extra s s' h
    rcases hcase with ⟨hown, hc⟩ | ⟨hown, rfl⟩
    · constructor
      · exact confirmTransaction_ok_events_mono env sender _ _ s' hc _
          (proposeValidation_submission_event outputRoot l2BlockNumber extra s)
      · rw [show transactionCount s' = s'.transactions.length from rfl,
          confirmTransaction_ok_length env sender _ _ s' hc, proposeValidation_length]
        rfl
    · exact ⟨proposeValidation_submission_event outputRoot l2BlockNumber extra s,
        proposeValidation_length outputRoot l2BlockNumber extra s⟩
  · intro sender outputIndex force s' h
    obtain ⟨hown, hguard, txId, smid, hsub, rfl⟩ :=
      requestDeletion_ok_inv env sender outputIndex force s s' h
    constructor
    · have hmem := submitTransaction_ok_submission_event env sender s.selfAddr 0
        (encodeDelete outputIndex) (markDeletion outputIndex s) txId smid hsub
      show SCEvent.Submission (transactionCount s) ∈
        smid.events ++ [SCEvent.DeletionRequested txId outputIndex]
      exact List.mem_append_left _ hmem
    · exact submitTransaction_ok_length env sender s.selfAddr 0 (encodeDelete outputIndex)
        (markDeletion outputIndex s) txId smid hsub
  · intro op i t ht
    cases op with
    | submit sender dest value data =>
      simp only [step]
      cases hr : submitTransaction env sender dest value data s with
      | ok p => exact submitTransaction_ok_entry env sender dest value data s p.1 p.2 hr i t ht
      | error e => exact ⟨t, ht, rfl, rfl, rfl⟩
    | confirm sender txId =>
      simp only [step]
      cases hr : confirmTransaction env sender txId s with
      | ok s2 => exact confirmTransaction_ok_entry env sender txId s s2 hr i t ht
      | error e => exact ⟨t, ht, rfl, rfl, rfl⟩
    | revoke sender txId =>
      simp only [step]
      cases hr : revokeConfirmation sender txId s with
      | ok s2 => exact revokeConfirmation_ok_entry sender txId s s2 hr i t ht
      | error e => exact ⟨t, ht, rfl, rfl, rfl⟩
    | execute txId =>
      simp only [step]
      cases hr : executeTransaction env txId s with
      | ok s2 => exact executeTransaction_ok_entry env txId s s2 hr i t ht
      | error e => exact ⟨t, ht, rfl, rfl, rfl⟩
    | reqValidation sender outputRoot l2BlockNumber extra =>
      simp only [step]
      cases hr : requestValidation env sender outputRoot l2BlockNumber extra s with
      | ok s2 =>
        exact requestValidation_ok_entry env sender outputRoot l2BlockNumber extra s s2 hr i t ht
      | error e => exact ⟨t, ht, rfl, rfl, rfl⟩
    | reqDeletion sender outputIndex force =>
      simp only [step]
      cases hr : requestDeletion env sender outputIndex force s with
      | ok s2 => exact requestDeletion_ok_entry env sender outputIndex force s s2 hr i t ht
      | error e => exact ⟨t, ht, rfl, rfl, rfl⟩

/-- Witness for C8: the first submission on the empty fixture ledger gets
id 0 and raises the count to 1. -/
theorem transaction_ids_sequential_ledger_append_only_witness :
    0 = transactionCount baseState ∧
    transactionCount submittedState = transactionCount baseState + 1 :=
  (transaction_ids_sequential_ledger_append_only envTrue baseState).1
    1 5 0 [7] 0 submittedState (by rfl)

/-- C9: `revokeConfirmation` by an owner currently in the confirmation set
of an unexecuted transaction removes exactly that caller from the set
(other members and other transactions' sets are untouched); on an
already-executed transaction it fails with `AlreadyExecuted` and does not
alter any confirmation set. -/
theorem revoke_removes_caller_executed_guard (env : CallEnv) (sender txId : Nat)
    (s : SCState) (hown : sender ∈ s.owners) (hc : sender ∈ confSet s txId) :
    (executedAt s txId = false →
      ∃ s', revokeConfirmation sender txId s = .ok s' ∧
        sender ∉ confSet s' txId ∧
        (∀ o : Nat, o ≠ sender → (o ∈ confSet s' txId ↔ o ∈ confSet s txId)) ∧
        (∀ j : Nat, j ≠ txId → confSet s' j = confSet s j)) ∧
    (executedAt s txId = true →
      revokeConfirmation sender txId s = .error SCError.AlreadyExecuted ∧
      step env (SCOp.revoke sender txId) s = s) := by
  constructor
  · intro hex
    have hcall : revokeConfirmation sender txId s = .ok { s with
        confirmations :=
          s.confirmations.set txId ((confSet s txId).filter (fun o => o != sender)),
        events := s.events ++ [SCEvent.Revocation sender txId] } := by
      unfold revokeConfirmation
      rw [if_pos hown, if_pos hc, if_neg (by simp [hex])]
    have hltc : txId < s.confirmations.length := by
      by_contra hge
      unfold confSet at hc
      rw [List.getElem?_eq_none (Nat.le_of_not_lt hge)] at hc
      simp at hc
    have hset : confSet { s with
        confirmations :=
          s.confirmations.set txId ((confSet s txId).filter (fun o => o != sender)),
        events := s.events ++ [SCEvent.Revocation sender txId] } txId =
        (confSet s txId).filter (fun o => o != sender) := by
      unfold confSet
      simp only []
      rw [List.getElem?_set_eq_of_lt _ hltc]
      rfl
    refine ⟨_, hcall, ?_, ?_, ?_⟩
    · rw [hset]
      simp [List.mem_filter]
    · intro o ho
      rw [hset]
      simp [List.mem_filter, ho]
    · intro j hj
      unfold confSet
      simp only []
      rw [List.getElem?_set_ne (Ne.symm hj)]
  · intro hex
    have hcall : revokeConfirmation sender txId s = .error SCError.AlreadyExecuted := by
      unfold revokeConfirmation
      rw [if_pos hown, if_pos hc, if_pos hex]
    refine ⟨hcall, ?_⟩
    simp only [step]
    rw [hcall]

/-- Witness for C9: owner 1 tries to revoke its confirmation of the
already-executed fixture transaction. -/
theorem revoke_removes_caller_executed_guard_witness :
    revokeConfirmation 1 0 executedTxState = .error SCError.AlreadyExecuted ∧
    step envTrue (SCOp.revoke 1 0) executedTxState = executedTxState :=
  (revoke_removes_caller_executed_guard envTrue 1 0 executedTxState
      (by decide) (by decide)).2 (by rfl)

/-- C10: calling `requestValidation` as the bound Colosseum address — which
is not a registered owner, so the same caller would be rejected by
`submitTransaction` — still creates a new transaction through the internal
submission path, and its confirmation set starts empty (the submitter is
not auto-confirmed), leaving the new transaction unexecuted until owner
confirmations arrive. -/
theorem requestValidation_by_colosseum_no_autoconfirm (env : CallEnv)
    (sender outputRoot l2BlockNumber : Nat) (extra : List Nat) (s : SCState)
    (hwf : SCWF s) (hcol : sender = s.colosseum) (hno : s.colosseum ∉ s.owners) :
    (∀ (dest value : Nat) (data : List Nat),
        submitTransaction env sender dest value data s = .error SCError.NotOwner) ∧
    ∃ s', requestValidation env sender outputRoot l2BlockNumber extra s = .ok s' ∧
      transactionCount s' = transactionCount s + 1 ∧
      confCount s' (transactionCount s) = 0 ∧
      executedAt s' (transactionCount s) = false := by
  have hnown : sender ∉ s.owners := by
    rw [hcol]
    exact hno
  constructor
  · intro dest value data
    unfold submitTransaction
    rw [if_neg hnown]
  · have hcall : requestValidation env sender outputRoot l2BlockNumber extra s =
        .ok (proposeValidation outputRoot l2BlockNumber extra s).2 := by
      unfold requestValidation
      rw [if_pos hcol, if_neg hnown]
    refine ⟨_, hcall, proposeValidation_length outputRoot l2BlockNumber extra s, ?_, ?_⟩
    · show confCount (proposeValidation outputRoot l2BlockNumber extra s).2
        s.transactions.length = 0
      unfold confCount
      rw [confSet_eq_of_confirmations_eq _ _ _
        (proposeValidation_confirmations outputRoot l2BlockNumber extra s)]
      rw [confSet_submitInternal_new _ _ _ s hwf]
      rfl
    · show executedAt (proposeValidation outputRoot l2BlockNumber extra s).2
        s.transactions.length = false
      rw [executedAt_proposeValidation]
      unfold executedAt
      rw [List.getElem?_eq_none (Nat.le_refl _)]
      rfl

/-- Witness for C10: the fixture Colosseum (address 9, not an owner)
requests validation on the empty ledger. -/
theorem requestValidation_by_colosseum_no_autoconfirm_witness :
    ∃ s', requestValidation envTrue 9 11 3 [7] baseState = .ok s' ∧
      transactionCount s' = transactionCount baseState + 1 ∧
      confCount s' (transactionCount baseState) = 0 ∧
      executedAt s' (transactionCount baseState) = false :=
  (requestValidation_by_colosseum_no_autoconfirm envTrue 9 11 3 [7] baseState
      (by rfl) (by rfl) (by decide)).2
